import Mathlib

/-!  Shallow embedding of the emotion-recognition demo pipeline
(`Emotion Recognition Models/demo_pipeline.py`, together with the matching
numeric utilities in `passive/model/network/Backtrack.py`).

Machine floats are modelled by `ℚ`, Python ints by `Int`/`Nat`.  External
collaborators (the scipy `resample` kernel, the CNN, the face detector and
the late-fusion module) are opaque: they enter as function parameters,
constrained only by their documented contracts where a claim needs one.
-/

namespace DemoPipeline

/-- Embeds `_upsample_to_64hz` / `Backtrack.upsample`:
`duration_sec = original_len / original_rate`;
`target_len = int(duration_sec * target_rate)`.
Python `int()` truncates toward zero; all quantities are nonnegative,
so this is the natural floor. -/
def targetLen (original_len original_rate target_rate : Nat) : Nat :=
  ⌊((original_len : ℚ) / (original_rate : ℚ)) * (target_rate : ℚ)⌋₊

/-- Embeds `_upsample_to_64hz(x_25hz)`: it calls `resample(x_25hz, target_len)` with
`original_rate=25`, `target_rate=64`.  The scipy FFT resampler is opaque;
it is passed in as `resampleFn`, whose documented contract is that the
output has exactly the requested number of samples. -/
def upsample (resampleFn : List ℚ → Nat → List ℚ) (x_25hz : List ℚ) : List ℚ :=
  resampleFn x_25hz (targetLen x_25hz.length 25 64)

/-- A concrete stand-in for the opaque scipy resampler, satisfying its
length contract (`len(resample(x, n)) = n`); used to instantiate
contract-parametrised theorems at concrete inputs. -/
def constResample (_s : List ℚ) (n : Nat) : List ℚ := List.replicate n 0

/-- Embeds `_extract_pulses(signal, pulse_len)` / the segmentation loop of
`Backtrack.py`:
`for start in range(0, len(signal) - pulse_len + 1, pulse_len):
    segments.append(signal[start : start + pulse_len])`.
Python `range(0, stop, W)` (for `W > 0`) yields the set of values
`k * W < stop`, i.e. `max 0 (ceil(stop / W))` iterations; with
`stop = len - W + 1` that count is `((len + 1 - W) + W - 1) / W` in
truncated `Nat` arithmetic.  Defined for `pulse_len > 0` (the code always
uses 140; Python raises on a zero step). -/
def extract_pulses (signal : List ℚ) (pulse_len : Nat) : List (List ℚ) :=
  (List.range (((signal.length + 1 - pulse_len) + pulse_len - 1) / pulse_len)).map
    (fun k => (signal.drop (k * pulse_len)).take pulse_len)

/-- Embeds `np.min` over a nonempty array (the code never applies it to an empty
one: the empty-input path returns earlier). -/
def listMin : List ℚ → ℚ
  | [] => 0
  | x :: xs => xs.foldl min x

/-- Embeds `np.max` over a nonempty array. -/
def listMax : List ℚ → ℚ
  | [] => 0
  | x :: xs => xs.foldl max x

/-- The elementwise min-max normalization
`(x - ppg_min) / (ppg_max - ppg_min) * 1000`. -/
def normalizeElem (mn mx x : ℚ) : ℚ := (x - mn) / (mx - mn) * 1000

/-- Embeds `ppg_normalized = (ppg_64hz - ppg_min) / (ppg_max - ppg_min) * 1000`
(`demo_pipeline.py` lines 173-175, `Backtrack.py` line 63). -/
def normalize (l : List ℚ) : List ℚ :=
  l.map (normalizeElem (listMin l) (listMax l))

/-- The divisor `ppg_max - ppg_min` of the normalization step, which the
code computes with no zero guard. -/
def ppgDenominator (l : List ℚ) : ℚ := listMax l - listMin l

/-- The query timestamp the fusion loop assigns to biosignal segment
`bio_idx`: `bio_time = bio_idx * 2.2` (line 385). -/
def bioQueryTime (bio_idx : Nat) : ℚ := (bio_idx : ℚ) * (11 / 5)

/-- The nearest-timestamp scan of `perform_fusion` (lines 381-391):
`best_visual_match = None; best_time_diff = float("inf")`, then for each
visual prediction `if time_diff < best_time_diff: update`.  The state is
(index of current best, current best difference); `none` as difference
models the initial `inf` (any finite difference beats it).  `idx` is the
position of the head of the remaining list inside the full list. -/
def scanBest (bio_time : ℚ) : Option Nat × Option ℚ → Nat → List ℚ → Option Nat × Option ℚ
  | st, _, [] => st
  | (best, bdOpt), idx, t :: rest =>
    match bdOpt with
    | none => scanBest bio_time (some idx, some |bio_time - t|) (idx + 1) rest
    | some bd =>
      if |bio_time - t| < bd then
        scanBest bio_time (some idx, some |bio_time - t|) (idx + 1) rest
      else
        scanBest bio_time (best, some bd) (idx + 1) rest

/-- Index of the visual prediction selected for a given biosignal query
timestamp (`none` exactly when no update ever fired, i.e. the visual list
is empty). -/
def bestMatch (bio_time : ℚ) (visual_timestamps : List ℚ) : Option Nat :=
  (scanBest bio_time (none, none) 0 visual_timestamps).1

/-- Embeds `perform_fusion` (lines 355-462), with visuals reduced to their
timestamps and the opaque `fusion_module.fuse_predictions` passed in as
`fuse` (its arguments: biosignal index, biosignal record, matched visual
index).  Mirrors the two early returns (`fusion_module is None`; both
prediction lists empty) and the per-biosignal loop, which appends exactly
one fused record whenever a match was found (`if best_visual_match:`,
always truthy for a nonempty prediction dict). -/
def perform_fusion {α β γ : Type} (fusion_module : Option β)
    (fuse : β → Nat → α → Nat → γ)
    (biosignal_predictions : List α) (visual_timestamps : List ℚ) : List γ :=
  match fusion_module with
  | none => []
  | some fm =>
    if biosignal_predictions.isEmpty ∧ visual_timestamps.isEmpty then []
    else
      biosignal_predictions.enum.filterMap fun p =>
        match bestMatch (bioQueryTime p.1) visual_timestamps with
        | some k => some (fuse fm p.1 p.2 k)
        | none => none

/-- Outcome of the biosignal stage: the returned prediction list and the
payload written to `biosignal_predictions.json` (`none` = no file was
written on this call). -/
structure BioStageOut (π : Type) where
  predictions : List π
  written : Option (List π)

/-- Embeds `process_biosignal_data` (lines 134-236), from the parsed PPG samples
onward.  `biosignal_model` is the nullable model field; `infer` is the
opaque CNN forward pass building one prediction record per segment
(arguments: model, segment index, segment).  The empty-data check at
lines 167-169 returns `[]` *before* the `json.dump` at lines 218-224, so
nothing is written on that path. -/
def process_biosignal_data {M π : Type} (biosignal_model : Option M)
    (resampleFn : List ℚ → Nat → List ℚ)
    (infer : M → Nat → List ℚ → π)
    (ppg_data : List Int) : BioStageOut π :=
  match biosignal_model with
  | none => ⟨[], none⟩
  | some m =>
    if ppg_data.isEmpty then ⟨[], none⟩
    else
      let ppg_array : List ℚ := ppg_data.map (fun z => (z : ℚ))
      let ppg_64hz := upsample resampleFn ppg_array
      let ppg_normalized := normalize ppg_64hz
      let segments := extract_pulses ppg_normalized 140
      let predictions := segments.enum.map (fun p => infer m p.1 p.2)
      ⟨predictions, some predictions⟩

/-- Embeds `_initialize_components`, biosignal part (lines 97-108): a failing
`torch.load`/`load_state_dict` is caught and the model field set to
`None`; success stores the model. -/
def initialize_biosignal_model {M : Type} (load_result : Except String M) : Option M :=
  match load_result with
  | Except.ok m => some m
  | Except.error _ => none

/-- Embeds `run_demo` (lines 464-497), reduced to the dataflow the claims are
about: initialize the biosignal model from the load outcome, run the
biosignal stage, take the (opaque) visual stage's timestamps as given,
fuse, and return (biosignal predictions, visual timestamps, fused list). -/
def run_demo {M π β γ : Type} (load_result : Except String M)
    (resampleFn : List ℚ → Nat → List ℚ)
    (infer : M → Nat → List ℚ → π)
    (ppg_data : List Int)
    (visual_timestamps : List ℚ)
    (fusion_module : Option β) (fuse : β → Nat → π → Nat → γ) :
    List π × List ℚ × List γ :=
  let model := initialize_biosignal_model load_result
  let bio := process_biosignal_data model resampleFn infer ppg_data
  let fused := perform_fusion fusion_module fuse bio.predictions visual_timestamps
  (bio.predictions, visual_timestamps, fused)

/-- The per-stage `try/except Exception` wrapper shared by the three
pipeline stages: on success the stage's list is returned with no
diagnostic; on an exception the diagnostic line is printed and `[]`
returned (lines 231-236, 348-353, 457-462).  The second component is the
list of diagnostic lines printed by the handler. -/
def guardStage {α : Type} (diagnostic : String) (body : Except String (List α)) :
    List α × List String :=
  match body with
  | Except.ok r => (r, [])
  | Except.error e => ([], [diagnostic ++ ": " ++ e])

/-- The `except` block of `process_biosignal_data` (lines 231-236). -/
def biosignal_stage {α : Type} (body : Except String (List α)) : List α × List String :=
  guardStage "❌ Error processing biosignal data" body

/-- The `except` block of `process_video_data` (lines 348-353). -/
def video_stage {α : Type} (body : Except String (List α)) : List α × List String :=
  guardStage "❌ Error processing video data" body

/-- The `except` block of `perform_fusion` (lines 457-462). -/
def fusion_stage {α : Type} (body : Except String (List α)) : List α × List String :=
  guardStage "❌ Error during fusion" body

/-- The universe of Python values `convert_numpy_types` is applied to:
NumPy scalar ints/floats, NumPy arrays, and native ints, floats, bools,
strings, `None`, lists, tuples and (string-keyed) dicts. -/
inductive PyVal : Type
  | npInt : Int → PyVal
  | npFloat : ℚ → PyVal
  | npArray : List PyVal → PyVal
  | pyInt : Int → PyVal
  | pyFloat : ℚ → PyVal
  | pyBool : Bool → PyVal
  | pyStr : String → PyVal
  | pyNone : PyVal
  | pyList : List PyVal → PyVal
  | pyTuple : List PyVal → PyVal
  | pyDict : List (String × PyVal) → PyVal

mutual

/-- Embeds `convert_numpy_types(obj)` (lines 19-42), branch for branch:
`np.integer → int(obj)`, `np.floating → float(obj)`,
`np.ndarray → obj.tolist()` (NumPy's `tolist` returns nested native lists,
i.e. the elementwise native conversion), `dict`/`list`/`tuple` rebuilt with
converted values (dict keys untouched), everything else returned
unchanged. -/
def convert_numpy_types : PyVal → PyVal
  | .npInt n => .pyInt n
  | .npFloat q => .pyFloat q
  | .npArray l => .pyList (convertItems l)
  | .pyDict kvs => .pyDict (convertEntries kvs)
  | .pyList l => .pyList (convertItems l)
  | .pyTuple l => .pyTuple (convertItems l)
  | .pyInt n => .pyInt n
  | .pyFloat q => .pyFloat q
  | .pyBool b => .pyBool b
  | .pyStr s => .pyStr s
  | .pyNone => .pyNone

/-- The comprehension `[convert_numpy_types(item) for item in obj]`. -/
def convertItems : List PyVal → List PyVal
  | [] => []
  | x :: xs => convert_numpy_types x :: convertItems xs

/-- The comprehension
`{key: convert_numpy_types(value) for key, value in obj.items()}`. -/
def convertEntries : List (String × PyVal) → List (String × PyVal)
  | [] => []
  | (k, v) :: rest => (k, convert_numpy_types v) :: convertEntries rest

end

/-! ### Helper lemmas -/

/-- Iteration count of the segmentation loop: Python
`range(0, L - W + 1, W)` runs `⌊L / W⌋` times (for `W > 0`). -/
lemma segment_count_eq (L W : Nat) (hW : 0 < W) :
    ((L + 1 - W) + W - 1) / W = L / W := by
  rcases le_or_lt W L with h | h
  · have hL : (L + 1 - W) + W - 1 = L := by omega
    rw [hL]
  · have h1 : L + 1 - W = 0 := by omega
    rw [h1, Nat.div_eq_of_lt (by omega), Nat.div_eq_of_lt h]

/-- A segment start stays within the signal: `i < L / W` gives
`i * W + W ≤ L`. -/
lemma segment_end_le (L W i : Nat) (hi : i < L / W) : i * W + W ≤ L := by
  have h1 : (i + 1) * W ≤ L / W * W := Nat.mul_le_mul_right W hi
  have h2 : L / W * W ≤ L := Nat.div_mul_le_self L W
  calc i * W + W = (i + 1) * W := by ring
    _ ≤ L / W * W := h1
    _ ≤ L := h2

/-! ### C2: length of the resampled signal -/

/-- Claim C2 as written is false: the code truncates
(`target_len = int(duration_sec * target_rate)`), it does not round.  At
`L = 1` the code requests `int(64/25) = int(2.56) = 2` samples, while
`round(duration * target_rate) = round(2.56) = 3`. -/
theorem upsample_length_round_cex :
    (upsample constResample [(37 : ℚ)]).length = 2 ∧
    round ((([(37 : ℚ)].length : ℚ) / 25) * 64) = 3 := by
  constructor
  · show (constResample _ (targetLen 1 25 64)).length = 2
    rw [constResample, List.length_replicate, targetLen,
      Nat.floor_eq_iff (by norm_num)]
    norm_num
  · rw [show ([(37 : ℚ)].length : ℚ) = 1 by norm_num, round_eq]
    norm_num

/-- C2, amended: for every input of length `L` (and any resampler meeting
scipy's contract that `resample(x, n)` has exactly `n` samples), the
resampled sequence has length `int(duration * target_rate)`, i.e.
`⌊(L / 25) * 64⌋` — truncation, not rounding. -/
theorem upsample_length_floor (resampleFn : List ℚ → Nat → List ℚ)
    (hres : ∀ s n, (resampleFn s n).length = n) (x_25hz : List ℚ) :
    (upsample resampleFn x_25hz).length = ⌊((x_25hz.length : ℚ) / 25) * 64⌋₊ ∧
    (upsample resampleFn x_25hz).length = 64 * x_25hz.length / 25 := by
  have hfloor : (upsample resampleFn x_25hz).length
      = ⌊((x_25hz.length : ℚ) / 25) * 64⌋₊ := by
    rw [upsample, hres, targetLen]
    norm_num
  refine ⟨hfloor, hfloor.trans ?_⟩
  have hcast : ((x_25hz.length : ℚ)) / 25 * 64
      = ((64 * x_25hz.length : ℕ) : ℚ) / ((25 : ℕ) : ℚ) := by
    push_cast
    ring
  rw [hcast, Nat.floor_div_eq_div]

/-- Witness for `upsample_length_floor` at a concrete one-sample input. -/
theorem upsample_length_floor_witness :
    (upsample constResample [(37 : ℚ)]).length = ⌊(([(37 : ℚ)].length : ℚ) / 25) * 64⌋₊ ∧
    (upsample constResample [(37 : ℚ)]).length = 64 * [(37 : ℚ)].length / 25 :=
  upsample_length_floor constResample (fun _ n => List.length_replicate n 0) [(37 : ℚ)]

/-! ### C4: the fixed-window segmenter -/

/-- Claim C4: segmenting a sequence of length `L` with window `W > 0`
yields exactly `⌊L / W⌋` windows; window `i` has exactly `W` elements and
its `j`-th element is the input's element at index `i * W + j`, so the
windows cover the consecutive disjoint index ranges `[0, W), [W, 2W), …`
and the trailing remainder is discarded. -/
theorem extract_pulses_spec (s : List ℚ) (W : Nat) (hW : 0 < W) :
    (extract_pulses s W).length = s.length / W ∧
    ∀ i, i < s.length / W →
      ∃ w, (extract_pulses s W)[i]? = some w ∧ w.length = W ∧
        ∀ j, j < W → w[j]? = s[i * W + j]? := by
  have hlen : (extract_pulses s W).length = s.length / W := by
    simp [extract_pulses, segment_count_eq s.length W hW]
  refine ⟨hlen, fun i hi => ?_⟩
  have hiW : i * W + W ≤ s.length := segment_end_le s.length W i hi
  refine ⟨(s.drop (i * W)).take W, ?_, ?_, ?_⟩
  · rw [extract_pulses, List.getElem?_map,
      List.getElem?_range (by rw [segment_count_eq s.length W hW]; exact hi)]
    rfl
  · rw [List.length_take, List.length_drop]
    omega
  · intro j hj
    rw [List.getElem?_take_of_lt hj, List.getElem?_drop]

/-- Witness for `extract_pulses_spec`: a five-element signal with window 2
gives two windows. -/
theorem extract_pulses_spec_witness :
    0 < 2 ∧ (extract_pulses [1, 2, 3, 4, 5] 2).length = [1, 2, 3, 4, 5].length / 2 :=
  ⟨by norm_num, (extract_pulses_spec [1, 2, 3, 4, 5] 2 (by norm_num)).1⟩

/-! ### C5: min-max normalization range -/

/-- Claim C5: on any non-constant input (`min < max`), every occurrence of
the minimum is normalized to 0 and every occurrence of the maximum to
1000. -/
theorem normalize_min_max (l : List ℚ) (h : listMin l < listMax l) :
    (∀ (i : Nat) (x : ℚ), l[i]? = some x → x = listMin l → (normalize l)[i]? = some 0) ∧
    (∀ (i : Nat) (x : ℚ), l[i]? = some x → x = listMax l → (normalize l)[i]? = some 1000) := by
  have hne : listMax l - listMin l ≠ 0 := sub_ne_zero.mpr (ne_of_gt h)
  constructor
  · intro i x hx hmin
    rw [normalize, List.getElem?_map, hx, Option.map_some']
    rw [normalizeElem, hmin]
    simp
  · intro i x hx hmax
    rw [normalize, List.getElem?_map, hx, Option.map_some']
    rw [normalizeElem, hmax, div_self hne]
    norm_num

/-- Witness for `normalize_min_max` on `[3, 1, 5]`: the minimum 1 (at
index 1) maps to 0 and the maximum 5 (at index 2) maps to 1000. -/
theorem normalize_min_max_witness :
    listMin [3, 1, 5] < listMax [3, 1, 5] ∧
    (normalize [3, 1, 5])[1]? = some 0 ∧ (normalize [3, 1, 5])[2]? = some 1000 := by
  have h : listMin [(3 : ℚ), 1, 5] < listMax [(3 : ℚ), 1, 5] := by
    norm_num [listMin, listMax, min_def, max_def]
  refine ⟨h, ?_, ?_⟩
  · exact (normalize_min_max [3, 1, 5] h).1 1 1 rfl
      (by norm_num [listMin, min_def])
  · exact (normalize_min_max [3, 1, 5] h).2 2 5 rfl
      (by norm_num [listMax, max_def])

/-! ### C10: the unguarded divisor -/

/-- Claim C10: the normalization divides by `ppg_max - ppg_min` with no
guard, and on every nonempty constant input that divisor is exactly 0, so
the division's error case (NumPy: a `0/0` NaN result) is reachable. -/
theorem normalization_divisor_zero (c : ℚ) (n : Nat) (hn : 0 < n) :
    ppgDenominator (List.replicate n c) = 0 ∧ List.replicate n c ≠ [] := by
  have hfmin : ∀ m : Nat, (List.replicate m c).foldl min c = c := by
    intro m
    induction m with
    | zero => rfl
    | succ k ih => rw [List.replicate_succ, List.foldl_cons, min_self]; exact ih
  have hfmax : ∀ m : Nat, (List.replicate m c).foldl max c = c := by
    intro m
    induction m with
    | zero => rfl
    | succ k ih => rw [List.replicate_succ, List.foldl_cons, max_self]; exact ih
  obtain ⟨m, rfl⟩ : ∃ m, n = m + 1 := ⟨n - 1, by omega⟩
  constructor
  · rw [List.replicate_succ, ppgDenominator, listMin, listMax, hfmin, hfmax, sub_self]
  · simp [List.replicate_succ]

/-- Witness for `normalization_divisor_zero`: the constant signal
`[5, 5]`. -/
theorem normalization_divisor_zero_witness :
    0 < 2 ∧ (ppgDenominator (List.replicate 2 (5 : ℚ)) = 0 ∧
      List.replicate 2 (5 : ℚ) ≠ []) :=
  ⟨by norm_num, normalization_divisor_zero 5 2 (by norm_num)⟩

/-! ### C1: empty CSV path of the biosignal stage -/

/-- Claim C1 as written is false: with zero PPG data points the stage
returns `[]` at lines 167-169, *before* the `json.dump` at lines 218-224,
so no `biosignal_predictions.json` is written (`written = none`, not a
file containing `[]`). -/
theorem biosignal_empty_no_file_cex :
    (process_biosignal_data (some ()) constResample (fun _ _ _ => ()) ([] : List Int)).written
      = none ∧
    (process_biosignal_data (some ()) constResample (fun _ _ _ => ()) ([] : List Int)).predictions
      = ([] : List Unit) :=
  ⟨rfl, rfl⟩

/-- C1, amended: when the CSV yields zero PPG data points the biosignal
stage returns an empty list without raising, but it returns before the
serialization step, so no output file is written. -/
theorem process_biosignal_data_empty {M π : Type} (biosignal_model : Option M)
    (resampleFn : List ℚ → Nat → List ℚ) (infer : M → Nat → List ℚ → π) :
    process_biosignal_data biosignal_model resampleFn infer []
      = ⟨[], none⟩ := by
  cases biosignal_model <;> rfl

/-! ### C6: per-stage exception handling -/

/-- Claim C6: every exception raised inside a stage body is caught by that
stage's `except` block, which prints a diagnostic naming the stage and
returns an empty list. -/
theorem stages_catch_all_exceptions {α : Type} (e : String) :
    biosignal_stage (Except.error e : Except String (List α))
      = ([], ["❌ Error processing biosignal data: " ++ e]) ∧
    video_stage (Except.error e : Except String (List α))
      = ([], ["❌ Error processing video data: " ++ e]) ∧
    fusion_stage (Except.error e : Except String (List α))
      = ([], ["❌ Error during fusion: " ++ e]) :=
  ⟨rfl, rfl, rfl⟩

/-! ### C7: degraded run with an unloadable biosignal model -/

/-- Fusing an empty biosignal list yields no fused records, whatever the
visual predictions. -/
lemma perform_fusion_nil_bios {α β γ : Type} (fusion_module : Option β)
    (fuse : β → Nat → α → Nat → γ) (visual_timestamps : List ℚ) :
    perform_fusion fusion_module fuse ([] : List α) visual_timestamps = [] := by
  cases fusion_module with
  | none => rfl
  | some fm =>
    rw [perform_fusion]
    split
    · rfl
    · rfl

/-- Claim C7: if loading the model weights fails, the model is marked
unavailable, the biosignal stage returns an empty list, and the pipeline
still completes with an empty fused result set. -/
theorem run_demo_model_load_failure {M π β γ : Type} (e : String)
    (resampleFn : List ℚ → Nat → List ℚ) (infer : M → Nat → List ℚ → π)
    (ppg_data : List Int) (visual_timestamps : List ℚ)
    (fusion_module : Option β) (fuse : β → Nat → π → Nat → γ) :
    initialize_biosignal_model (Except.error e : Except String M) = none ∧
    (run_demo (Except.error e : Except String M) resampleFn infer ppg_data
      visual_timestamps fusion_module fuse).1 = [] ∧
    (run_demo (Except.error e : Except String M) resampleFn infer ppg_data
      visual_timestamps fusion_module fuse).2.2 = [] :=
  ⟨rfl, rfl, perform_fusion_nil_bios fusion_module fuse visual_timestamps⟩

/-! ### C8: NumPy-to-native conversion -/

/-- Lemma: `convertItems` is the elementwise conversion. -/
lemma convertItems_eq_map (l : List PyVal) :
    convertItems l = l.map convert_numpy_types := by
  induction l with
  | nil => rfl
  | cons x xs ih => rw [convertItems, List.map_cons, ih]

/-- Lemma: `convertEntries` converts the values and keeps the keys. -/
lemma convertEntries_eq_map (kvs : List (String × PyVal)) :
    convertEntries kvs = kvs.map (fun kv => (kv.1, convert_numpy_types kv.2)) := by
  induction kvs with
  | nil => rfl
  | cons kv rest ih =>
    cases kv
    rw [convertEntries, List.map_cons, ih]

/-- Claim C8: `convert_numpy_types` turns NumPy integers into native ints,
NumPy floats into native floats and NumPy arrays into lists, recurses
through dicts (values only), lists and tuples, and returns every other
value unchanged. -/
theorem convert_numpy_types_spec :
    (∀ n : Int, convert_numpy_types (PyVal.npInt n) = PyVal.pyInt n) ∧
    (∀ q : ℚ, convert_numpy_types (PyVal.npFloat q) = PyVal.pyFloat q) ∧
    (∀ l, convert_numpy_types (PyVal.npArray l)
      = PyVal.pyList (l.map convert_numpy_types)) ∧
    (∀ kvs, convert_numpy_types (PyVal.pyDict kvs)
      = PyVal.pyDict (kvs.map (fun kv => (kv.1, convert_numpy_types kv.2)))) ∧
    (∀ l, convert_numpy_types (PyVal.pyList l)
      = PyVal.pyList (l.map convert_numpy_types)) ∧
    (∀ l, convert_numpy_types (PyVal.pyTuple l)
      = PyVal.pyTuple (l.map convert_numpy_types)) ∧
    (∀ n : Int, convert_numpy_types (PyVal.pyInt n) = PyVal.pyInt n) ∧
    (∀ q : ℚ, convert_numpy_types (PyVal.pyFloat q) = PyVal.pyFloat q) ∧
    (∀ b : Bool, convert_numpy_types (PyVal.pyBool b) = PyVal.pyBool b) ∧
    (∀ s : String, convert_numpy_types (PyVal.pyStr s) = PyVal.pyStr s) ∧
    convert_numpy_types PyVal.pyNone = PyVal.pyNone := by
  refine ⟨fun n => rfl, fun q => rfl, fun l => ?_, fun kvs => ?_, fun l => ?_,
    fun l => ?_, fun n => rfl, fun q => rfl, fun b => rfl, fun s => rfl, rfl⟩
  · rw [show convert_numpy_types (PyVal.npArray l) = PyVal.pyList (convertItems l) from rfl,
      convertItems_eq_map]
  · rw [show convert_numpy_types (PyVal.pyDict kvs) = PyVal.pyDict (convertEntries kvs) from rfl,
      convertEntries_eq_map]
  · rw [show convert_numpy_types (PyVal.pyList l) = PyVal.pyList (convertItems l) from rfl,
      convertItems_eq_map]
  · rw [show convert_numpy_types (PyVal.pyTuple l) = PyVal.pyTuple (convertItems l) from rfl,
      convertItems_eq_map]

/-! ### C3/C9: the nearest-timestamp scan -/

/-- Invariant of the scan loop once a best candidate exists.  Starting
from state (best index `k0`, best difference `bd0`) with `k0 < idx`
(indices only grow), the scan ends in a `some` state whose difference is
a lower bound for the remaining differences, improves only strictly, and
beats every remaining element left of the final index strictly. -/
lemma scanBest_go (bt : ℚ) (l : List ℚ) :
    ∀ (idx k0 : Nat) (bd0 : ℚ), k0 < idx →
      ∃ (k : Nat) (bd : ℚ),
        scanBest bt (some k0, some bd0) idx l = (some k, some bd) ∧
        bd ≤ bd0 ∧
        (∀ (j : Nat) (t : ℚ), l[j]? = some t → bd ≤ |bt - t|) ∧
        ((k = k0 ∧ bd = bd0) ∨
          ∃ (j : Nat) (t : ℚ), l[j]? = some t ∧ k = idx + j ∧ bd = |bt - t| ∧ bd < bd0) ∧
        (∀ (j : Nat) (t : ℚ), l[j]? = some t → idx + j < k → bd < |bt - t|) := by
  induction l with
  | nil =>
    intro idx k0 bd0 hk
    exact ⟨k0, bd0, rfl, le_refl _, by simp, Or.inl ⟨rfl, rfl⟩, by simp⟩
  | cons t rest ih =>
    intro idx k0 bd0 hk
    by_cases hlt : |bt - t| < bd0
    · have hstep : scanBest bt (some k0, some bd0) idx (t :: rest)
          = scanBest bt (some idx, some |bt - t|) (idx + 1) rest := by
        simp only [scanBest]
        rw [if_pos hlt]
      obtain ⟨k, bd, heq, hle, hall, hcase, hstrict⟩ :=
        ih (idx + 1) idx |bt - t| (Nat.lt_succ_self idx)
      refine ⟨k, bd, hstep.trans heq, le_of_lt (lt_of_le_of_lt hle hlt), ?_, ?_, ?_⟩
      · intro j u hj
        cases j with
        | zero =>
          rw [List.getElem?_cons_zero, Option.some_inj] at hj
          rw [← hj]
          exact hle
        | succ j' =>
          rw [List.getElem?_cons_succ] at hj
          exact hall j' u hj
      · rcases hcase with ⟨hkeq, hbdeq⟩ | ⟨j0, t0, hj0, hkeq, hbdeq, hbdlt⟩
        · exact Or.inr ⟨0, t, List.getElem?_cons_zero, by omega, hbdeq, hbdeq ▸ hlt⟩
        · exact Or.inr ⟨j0 + 1, t0, by rw [List.getElem?_cons_succ]; exact hj0,
            by omega, hbdeq, lt_trans hbdlt hlt⟩
      · intro j u hj hjk
        cases j with
        | zero =>
          rw [List.getElem?_cons_zero, Option.some_inj] at hj
          rcases hcase with ⟨hkeq, _⟩ | ⟨_, _, _, _, _, hbdlt⟩
          · omega
          · rw [← hj]
            exact hbdlt
        | succ j' =>
          rw [List.getElem?_cons_succ] at hj
          exact hstrict j' u hj (by omega)
    · have hstep : scanBest bt (some k0, some bd0) idx (t :: rest)
          = scanBest bt (some k0, some bd0) (idx + 1) rest := by
        simp only [scanBest]
        rw [if_neg hlt]
      obtain ⟨k, bd, heq, hle, hall, hcase, hstrict⟩ :=
        ih (idx + 1) k0 bd0 (Nat.lt_succ_of_lt hk)
      refine ⟨k, bd, hstep.trans heq, hle, ?_, ?_, ?_⟩
      · intro j u hj
        cases j with
        | zero =>
          rw [List.getElem?_cons_zero, Option.some_inj] at hj
          rw [← hj]
          exact le_trans hle (le_of_not_lt hlt)
        | succ j' =>
          rw [List.getElem?_cons_succ] at hj
          exact hall j' u hj
      · rcases hcase with ⟨hkeq, hbdeq⟩ | ⟨j0, t0, hj0, hkeq, hbdeq, hbdlt⟩
        · exact Or.inl ⟨hkeq, hbdeq⟩
        · exact Or.inr ⟨j0 + 1, t0, by rw [List.getElem?_cons_succ]; exact hj0,
            by omega, hbdeq, hbdlt⟩
      · intro j u hj hjk
        cases j with
        | zero =>
          rw [List.getElem?_cons_zero, Option.some_inj] at hj
          rcases hcase with ⟨hkeq, _⟩ | ⟨_, _, _, _, _, hbdlt⟩
          · omega
          · rw [← hj]
            exact lt_of_lt_of_le hbdlt (le_of_not_lt hlt)
        | succ j' =>
          rw [List.getElem?_cons_succ] at hj
          exact hstrict j' u hj (by omega)

/-- On a nonempty visual list the scan returns the first index attaining
the minimal absolute timestamp difference: its difference is a lower
bound for all records, and strictly below every earlier record's. -/
lemma bestMatch_found (bt : ℚ) (vis : List ℚ) (h : vis ≠ []) :
    ∃ (k : Nat) (t : ℚ), bestMatch bt vis = some k ∧ vis[k]? = some t ∧
      (∀ (j : Nat) (u : ℚ), vis[j]? = some u → |bt - t| ≤ |bt - u|) ∧
      (∀ (j : Nat) (u : ℚ), vis[j]? = some u → j < k → |bt - t| < |bt - u|) := by
  cases vis with
  | nil => exact absurd rfl h
  | cons v rest =>
    have hstep : bestMatch bt (v :: rest)
        = (scanBest bt (some 0, some |bt - v|) 1 rest).1 := rfl
    obtain ⟨k, bd, heq, hle, hall, hcase, hstrict⟩ :=
      scanBest_go bt rest 1 0 |bt - v| Nat.one_pos
    have hbm : bestMatch bt (v :: rest) = some k := by
      rw [hstep, heq]
    rcases hcase with ⟨hkeq, hbdeq⟩ | ⟨j0, t0, hj0, hkeq, hbdeq, hbdlt⟩
    · refine ⟨0, v, hkeq ▸ hbm, List.getElem?_cons_zero, ?_, ?_⟩
      · intro j u hj
        cases j with
        | zero =>
          rw [List.getElem?_cons_zero, Option.some_inj] at hj
          rw [← hj]
        | succ j' =>
          rw [List.getElem?_cons_succ] at hj
          have := hall j' u hj
          rw [hbdeq] at this
          exact this
      · intro j u hj hjk
        omega
    · refine ⟨k, t0, hbm, ?_, ?_, ?_⟩
      · rw [hkeq, Nat.add_comm, List.getElem?_cons_succ]
        exact hj0
      · intro j u hj
        cases j with
        | zero =>
          rw [List.getElem?_cons_zero, Option.some_inj] at hj
          rw [← hj, ← hbdeq]
          exact le_of_lt hbdlt
        | succ j' =>
          rw [List.getElem?_cons_succ] at hj
          rw [← hbdeq]
          exact hall j' u hj
      · intro j u hj hjk
        cases j with
        | zero =>
          rw [List.getElem?_cons_zero, Option.some_inj] at hj
          rw [← hj, ← hbdeq]
          exact hbdlt
        | succ j' =>
          rw [List.getElem?_cons_succ] at hj
          rw [← hbdeq]
          exact hstrict j' u hj (by omega)

/-- Claim C3: for every biosignal segment index (query timestamp
`bio_idx * 2.2`) and nonempty visual list, the scan selects the record
minimizing the absolute timestamp difference, ties going to the
earliest-seen record; in particular for timestamps `{0, 2, 4}` and query
`2.2` it selects the record at `2.0` (index 1). -/
theorem nearest_match_spec :
    (∀ (bio_idx : Nat) (vis : List ℚ), vis ≠ [] →
      ∃ (k : Nat) (t : ℚ), bestMatch (bioQueryTime bio_idx) vis = some k ∧
        vis[k]? = some t ∧
        (∀ (j : Nat) (u : ℚ), vis[j]? = some u →
          |bioQueryTime bio_idx - t| ≤ |bioQueryTime bio_idx - u|) ∧
        (∀ (j : Nat) (u : ℚ), vis[j]? = some u → j < k →
          |bioQueryTime bio_idx - t| < |bioQueryTime bio_idx - u|)) ∧
    (bestMatch (bioQueryTime 1) [0, 2, 4] = some 1 ∧
      ([0, 2, 4] : List ℚ)[1]? = some 2) := by
  refine ⟨fun bio_idx vis h => bestMatch_found (bioQueryTime bio_idx) vis h, ?_, rfl⟩
  norm_num [bestMatch, scanBest, bioQueryTime, abs, max_def]

/-- Witness for `nearest_match_spec` at segment index 0 and a single
visual record. -/
theorem nearest_match_spec_witness :
    ∃ (k : Nat) (t : ℚ), bestMatch (bioQueryTime 0) [(7 : ℚ)] = some k ∧
      ([(7 : ℚ)])[k]? = some t ∧
      (∀ (j : Nat) (u : ℚ), ([(7 : ℚ)])[j]? = some u →
        |bioQueryTime 0 - t| ≤ |bioQueryTime 0 - u|) ∧
      (∀ (j : Nat) (u : ℚ), ([(7 : ℚ)])[j]? = some u → j < k →
        |bioQueryTime 0 - t| < |bioQueryTime 0 - u|) :=
  nearest_match_spec.1 0 [(7 : ℚ)] (by simp)

/-- A nonempty visual list always yields a match. -/
lemma bestMatch_isSome (bt : ℚ) (vis : List ℚ) (h : vis ≠ []) :
    ∃ k, bestMatch bt vis = some k := by
  obtain ⟨k, t, hk, -, -, -⟩ := bestMatch_found bt vis h
  exact ⟨k, hk⟩

/-- Applying `filterMap` with a function that hits on every element preserves
length. -/
lemma length_filterMap_all_some {δ γ : Type} (f : δ → Option γ) :
    ∀ l : List δ, (∀ a ∈ l, (f a).isSome) → (l.filterMap f).length = l.length := by
  intro l
  induction l with
  | nil => simp
  | cons a rest ih =>
    intro h
    obtain ⟨b, hb⟩ := Option.isSome_iff_exists.mp (h a (List.mem_cons_self a rest))
    rw [List.filterMap_cons_some hb, List.length_cons, List.length_cons,
      ih (fun x hx => h x (List.mem_cons_of_mem a hx))]

/-- Applying `filterMap` with a function that misses on every element gives `[]`. -/
lemma filterMap_all_none {δ γ : Type} (f : δ → Option γ) :
    ∀ l : List δ, (∀ a ∈ l, f a = none) → l.filterMap f = [] := by
  intro l
  induction l with
  | nil => simp
  | cons a rest ih =>
    intro h
    rw [List.filterMap_cons_none (h a (List.mem_cons_self a rest)),
      ih (fun x hx => h x (List.mem_cons_of_mem a hx))]

/-- Claim C9: when the fusion module is available and the visual list is
nonempty, `perform_fusion` emits exactly one fused record per biosignal
prediction; with an empty visual list the fused result is empty. -/
theorem perform_fusion_length {α β γ : Type} (fm : β) (fuse : β → Nat → α → Nat → γ)
    (biosignal_predictions : List α) :
    (∀ visual_timestamps : List ℚ, visual_timestamps ≠ [] →
      (perform_fusion (some fm) fuse biosignal_predictions visual_timestamps).length
        = biosignal_predictions.length) ∧
    perform_fusion (some fm) fuse biosignal_predictions ([] : List ℚ) = [] := by
  constructor
  · intro vis hvis
    rw [perform_fusion]
    rw [if_neg (by simp [List.isEmpty_iff, hvis])]
    rw [length_filterMap_all_some _ biosignal_predictions.enum ?_, List.enum_length]
    intro p _
    obtain ⟨k, hk⟩ := bestMatch_isSome (bioQueryTime p.1) vis hvis
    rw [hk]
    exact Option.isSome_some
  · rw [perform_fusion]
    split
    · rfl
    · refine filterMap_all_none _ biosignal_predictions.enum ?_
      intro p _
      rfl

/-- Witness for `perform_fusion_length`: two biosignal records, one
visual timestamp. -/
theorem perform_fusion_length_witness :
    (perform_fusion (some ()) (fun _ i _ k => (i, k)) [(), ()] [(1 : ℚ)]).length
      = [(), ()].length :=
  (perform_fusion_length () (fun _ i _ k => (i, k)) [(), ()]).1 [(1 : ℚ)] (by simp)

end DemoPipeline
